import Mathlib

/-!
# Glosten–Milgrom sequential-trade model: verification of the specification

Shallow embedding of `src/Glosten_Milgrom_model.py` over the rationals.

* Numbers are `ℚ`; Python float division by an exactly-zero denominator raises
  `ZeroDivisionError`, embedded here as `Except PyErr` with `PyErr.zeroDivision`.
* The process-wide random source is embedded as an explicit list of draws, one
  pair of `random.random()` outputs per tick (the first decides trader type,
  the second the drawn fundamental value).
* Histories are Lean lists built by appending at the end, exactly as the Python
  code appends to its history lists.
-/

/-- Python run-time error relevant to this program: float division by zero. -/
inductive PyErr : Type
  | zeroDivision : PyErr
deriving DecidableEq, Repr

/-- `calculate_prices(V_L, V_H, delta, mu)` from the source:
`PA = (V_L + V_H)/2 + (V_H - V_L)*mu*delta/2`,
`PB = (V_L + V_H)/2 - (V_H - V_L)*mu*delta/2`; returns `(PA, PB)`. -/
def calculate_prices (V_L V_H delta mu : ℚ) : ℚ × ℚ :=
  ((V_L + V_H) / 2 + (V_H - V_L) * mu * delta / 2,
   (V_L + V_H) / 2 - (V_H - V_L) * mu * delta / 2)

/-- Denominator of the buy update: `1 + mu * (1 - 2*delta)`. -/
def buyDenom (delta mu : ℚ) : ℚ := 1 + mu * (1 - 2 * delta)

/-- Denominator of the sell update: `1 - mu * (1 - 2*delta)`. -/
def sellDenom (delta mu : ℚ) : ℚ := 1 - mu * (1 - 2 * delta)

/-- The value computed by `update_delta_buy` when its denominator is nonzero. -/
def buyPosterior (delta mu : ℚ) : ℚ := delta * (1 - mu) / buyDenom delta mu

/-- The value computed by `update_delta_sell` when its denominator is nonzero. -/
def sellPosterior (delta mu : ℚ) : ℚ := delta * (1 + mu) / sellDenom delta mu

/-- `update_delta_buy(delta, mu)` from the source:
`(delta * (1 - mu)) / (1 + mu * (1 - 2*delta))`.
The body is a single division; in Python it raises `ZeroDivisionError` when the
denominator is exactly zero and otherwise returns the quotient, with no other
check of any kind. -/
def update_delta_buy (delta mu : ℚ) : Except PyErr ℚ :=
  if buyDenom delta mu = 0 then Except.error PyErr.zeroDivision
  else Except.ok (buyPosterior delta mu)

/-- `update_delta_sell(delta, mu)` from the source:
`(delta * (1 + mu)) / (1 - mu * (1 - 2*delta))`, same failure mode. -/
def update_delta_sell (delta mu : ℚ) : Except PyErr ℚ :=
  if sellDenom delta mu = 0 then Except.error PyErr.zeroDivision
  else Except.ok (sellPosterior delta mu)

/-- One tick's pair of `random.random()` outputs: `rType` decides the trader
type (`informed` iff `rType < mu`), `rValue` the drawn fundamental
(`V_L` iff `rValue < delta`). -/
structure Draw : Type where
  rType : ℚ
  rValue : ℚ
deriving DecidableEq, Repr

/-- The drawn fundamental of a tick: `V_L if random.random() < delta else V_H`. -/
def drawnValue (d : Draw) (delta V_L V_H : ℚ) : ℚ :=
  if d.rValue < delta then V_L else V_H

/-- The local state of one `simulate_model` run: the current belief and the
five history lists the loop appends to. -/
structure SimState : Type where
  delta : ℚ
  spread_history : List ℚ
  delta_history : List ℚ
  asset_price_history : List ℚ
  ask_history : List ℚ
  bid_history : List ℚ
deriving DecidableEq, Repr

/-- The state just before the loop in `simulate_model`: belief `delta`,
`delta_history = [delta]`, all other histories empty. -/
def initState (delta : ℚ) : SimState :=
  { delta := delta
    spread_history := []
    delta_history := [delta]
    asset_price_history := []
    ask_history := []
    bid_history := [] }

/-- One iteration of the loop body of `simulate_model`: draw the trader type
and the fundamental, record the fundamental and the quotes computed from the
current belief, update the belief on an informed trade (buy if the drawn value
equals `V_H`, else sell), then record the illustrative spread
`mu * (V_H - V_L) * delta * (1 - delta)` at the updated belief and the updated
belief itself. A `ZeroDivisionError` in an update aborts the run. -/
def simulate_step (mu V_L V_H : ℚ) (st : SimState) (d : Draw) : Except PyErr SimState :=
  let tv := drawnValue d st.delta V_L V_H
  let PA := (calculate_prices V_L V_H st.delta mu).1
  let PB := (calculate_prices V_L V_H st.delta mu).2
  let newDelta : Except PyErr ℚ :=
    if d.rType < mu then
      if tv = V_H then update_delta_buy st.delta mu
      else update_delta_sell st.delta mu
    else Except.ok st.delta
  match newDelta with
  | Except.error e => Except.error e
  | Except.ok d' =>
      Except.ok
        { delta := d'
          spread_history := st.spread_history ++ [mu * (V_H - V_L) * d' * (1 - d')]
          delta_history := st.delta_history ++ [d']
          asset_price_history := st.asset_price_history ++ [tv]
          ask_history := st.ask_history ++ [PA]
          bid_history := st.bid_history ++ [PB] }

/-- The `for _ in range(n_tiks)` loop of `simulate_model`, iterated over the
explicit draw sequence. -/
def simulate_loop (mu V_L V_H : ℚ) : SimState → List Draw → Except PyErr SimState
  | st, [] => Except.ok st
  | st, d :: ds =>
      match simulate_step mu V_L V_H st d with
      | Except.error e => Except.error e
      | Except.ok st' => simulate_loop mu V_L V_H st' ds

/-- `simulate_model(delta, mu, V_L, V_H, n_tiks)` from the source, with the
tick count given by the length of the draw sequence. -/
def simulate_model (delta mu V_L V_H : ℚ) (draws : List Draw) : Except PyErr SimState :=
  simulate_loop mu V_L V_H (initState delta) draws

/-- The Monte Carlo loop (`for _ in range(n_simulations)`): every replication
starts from the same parameters and consumes its own draw sequence. -/
def run_simulations (delta mu V_L V_H : ℚ) : List (List Draw) → Except PyErr (List SimState)
  | [] => Except.ok []
  | ds :: rest =>
      match simulate_model delta mu V_L V_H ds with
      | Except.error e => Except.error e
      | Except.ok st =>
          match run_simulations delta mu V_L V_H rest with
          | Except.error e => Except.error e
          | Except.ok sts => Except.ok (st :: sts)

/-- Elementwise mean at time index `j` of a family of series
(`np.mean(xss, axis=0)` sampled at `j`). -/
def mean_at (xss : List (List ℚ)) (j : ℕ) : ℚ :=
  (xss.map (fun xs => xs.getD j 0)).sum / (xss.length : ℚ)

/-- `mean_delta = np.mean(all_delta_histories, axis=0)` sampled at index `j`. -/
def mean_delta (runs : List SimState) (j : ℕ) : ℚ :=
  mean_at (runs.map SimState.delta_history) j

/-- The post-state of the worked single-tick example from the spec:
`valueLow = 99`, `valueHigh = 101`, initial belief `1/2`, `mu = 1/5`, with
draws forcing an informed buy (`rType = 0 < 1/5`, `rValue = 3/4 ≥ 1/2`). -/
def exampleTick : SimState :=
  { delta := 2/5
    spread_history := [12/125]
    delta_history := [1/2, 2/5]
    asset_price_history := [101]
    ask_history := [1001/10]
    bid_history := [999/10] }

/-! ## Helper lemmas about the update formulas -/

theorem update_delta_buy_eq_ok (delta mu : ℚ) (h : buyDenom delta mu ≠ 0) :
    update_delta_buy delta mu = Except.ok (buyPosterior delta mu) := by
  rw [update_delta_buy, if_neg h]

theorem update_delta_sell_eq_ok (delta mu : ℚ) (h : sellDenom delta mu ≠ 0) :
    update_delta_sell delta mu = Except.ok (sellPosterior delta mu) := by
  rw [update_delta_sell, if_neg h]

theorem buyDenom_pos (delta mu : ℚ) (hd1 : delta ≤ 1) (hm0 : 0 ≤ mu) (hm1 : mu < 1) :
    0 < buyDenom delta mu := by
  unfold buyDenom
  nlinarith [mul_nonneg hm0 (sub_nonneg.2 hd1)]

theorem sellDenom_pos (delta mu : ℚ) (hd0 : 0 ≤ delta) (hm0 : 0 ≤ mu) (hm1 : mu < 1) :
    0 < sellDenom delta mu := by
  unfold sellDenom
  nlinarith [mul_nonneg hm0 hd0]

theorem buyPosterior_nonneg (delta mu : ℚ) (hd0 : 0 ≤ delta) (hd1 : delta ≤ 1)
    (hm0 : 0 ≤ mu) (hm1 : mu < 1) : 0 ≤ buyPosterior delta mu := by
  exact div_nonneg (by nlinarith) (le_of_lt (buyDenom_pos delta mu hd1 hm0 hm1))

theorem buyPosterior_le_one (delta mu : ℚ) (hd1 : delta ≤ 1)
    (hm0 : 0 ≤ mu) (hm1 : mu < 1) : buyPosterior delta mu ≤ 1 := by
  rw [buyPosterior, div_le_one (buyDenom_pos delta mu hd1 hm0 hm1), buyDenom]
  nlinarith [mul_nonneg (sub_nonneg.2 hd1) (by linarith : (0:ℚ) ≤ 1 + mu)]

theorem sellPosterior_nonneg (delta mu : ℚ) (hd0 : 0 ≤ delta)
    (hm0 : 0 ≤ mu) (hm1 : mu < 1) : 0 ≤ sellPosterior delta mu := by
  exact div_nonneg (by nlinarith) (le_of_lt (sellDenom_pos delta mu hd0 hm0 hm1))

theorem sellPosterior_le_one (delta mu : ℚ) (hd0 : 0 ≤ delta) (hd1 : delta ≤ 1)
    (hm0 : 0 ≤ mu) (hm1 : mu < 1) : sellPosterior delta mu ≤ 1 := by
  rw [sellPosterior, div_le_one (sellDenom_pos delta mu hd0 hm0 hm1), sellDenom]
  nlinarith [mul_nonneg (sub_nonneg.2 hd1) (sub_nonneg.2 (le_of_lt hm1))]

theorem buyPosterior_pos (delta mu : ℚ) (hd0 : 0 < delta) (hd1 : delta ≤ 1)
    (hm0 : 0 ≤ mu) (hm1 : mu < 1) : 0 < buyPosterior delta mu := by
  exact div_pos (by nlinarith) (buyDenom_pos delta mu hd1 hm0 hm1)

theorem buyPosterior_lt_one (delta mu : ℚ) (hd1 : delta < 1)
    (hm0 : 0 ≤ mu) (hm1 : mu < 1) : buyPosterior delta mu < 1 := by
  rw [buyPosterior, div_lt_one (buyDenom_pos delta mu (le_of_lt hd1) hm0 hm1), buyDenom]
  nlinarith [mul_nonneg (sub_nonneg.2 (le_of_lt hd1)) hm0]

theorem sellPosterior_pos (delta mu : ℚ) (hd0 : 0 < delta)
    (hm0 : 0 ≤ mu) (hm1 : mu < 1) : 0 < sellPosterior delta mu := by
  exact div_pos (by nlinarith) (sellDenom_pos delta mu (le_of_lt hd0) hm0 hm1)

theorem sellPosterior_lt_one (delta mu : ℚ) (hd0 : 0 ≤ delta) (hd1 : delta < 1)
    (hm0 : 0 ≤ mu) (hm1 : mu < 1) : sellPosterior delta mu < 1 := by
  rw [sellPosterior, div_lt_one (sellDenom_pos delta mu hd0 hm0 hm1), sellDenom]
  nlinarith [mul_nonneg (sub_nonneg.2 (le_of_lt hd1)) (sub_nonneg.2 (le_of_lt hm1))]

/-! ## Claim C1 -/

/-- Claim C1 counterexample: at `delta = 2`, `mu = 1/2` the computed posterior
is `-2`, which lies outside `[0,1]`, yet `update_delta_buy` returns it normally
instead of failing with any error; `update_delta_sell` likewise returns `6/5`
there. The code contains no `DegenerateBelief` guard at all. -/
theorem update_delta_returns_degenerate_posterior :
    update_delta_buy 2 (1/2) = Except.ok (-2) ∧ ((-2 : ℚ) < 0) ∧
    update_delta_sell 2 (1/2) = Except.ok (6/5) ∧ ((1 : ℚ) < 6/5) := by
  refine ⟨?_, by norm_num, ?_, by norm_num⟩
  · rw [update_delta_buy, if_neg (by norm_num [buyDenom])]
    norm_num [buyPosterior, buyDenom]
  · rw [update_delta_sell, if_neg (by norm_num [sellDenom])]
    norm_num [sellPosterior, sellDenom]

/-- Claim C1 (amended): the belief-update functions carry no tolerance or
range guard. Whenever the denominator is nonzero — however close to zero, and
whatever the resulting posterior — they return the raw formula value normally;
they fail (with Python's `ZeroDivisionError`, not a `DegenerateBelief` error)
exactly when the denominator is exactly zero. -/
theorem update_delta_no_degenerate_guard (delta mu : ℚ) :
    (buyDenom delta mu ≠ 0 →
      update_delta_buy delta mu = Except.ok (buyPosterior delta mu)) ∧
    (buyDenom delta mu = 0 →
      update_delta_buy delta mu = Except.error PyErr.zeroDivision) ∧
    (sellDenom delta mu ≠ 0 →
      update_delta_sell delta mu = Except.ok (sellPosterior delta mu)) ∧
    (sellDenom delta mu = 0 →
      update_delta_sell delta mu = Except.error PyErr.zeroDivision) := by
  refine ⟨fun h => update_delta_buy_eq_ok delta mu h,
          fun h => ?_,
          fun h => update_delta_sell_eq_ok delta mu h,
          fun h => ?_⟩
  · rw [update_delta_buy, if_pos h]
  · rw [update_delta_sell, if_pos h]

/-- Claim C1 witness: at `delta = 2`, `mu = 1/2` both denominators are nonzero
and both updates return their formula values normally, the buy posterior being
`-2 ∉ [0,1]`. -/
theorem update_delta_no_degenerate_guard_witness :
    update_delta_buy 2 (1/2) = Except.ok (buyPosterior 2 (1/2)) ∧
    update_delta_sell 2 (1/2) = Except.ok (sellPosterior 2 (1/2)) :=
  ⟨(update_delta_no_degenerate_guard 2 (1/2)).1 (by norm_num [buyDenom]),
   (update_delta_no_degenerate_guard 2 (1/2)).2.2.1 (by norm_num [sellDenom])⟩

/-! ## Claim C4 -/

/-- Claim C4: for `valueLow < valueHigh`, `delta ∈ [0,1]` and
`informedFraction ∈ [0,1]`, `calculate_prices` returns `ask ≥ bid`. -/
theorem calculate_prices_ask_ge_bid (V_L V_H delta mu : ℚ) (hV : V_L < V_H)
    (hd0 : 0 ≤ delta) (hd1 : delta ≤ 1) (hm0 : 0 ≤ mu) (hm1 : mu ≤ 1) :
    (calculate_prices V_L V_H delta mu).2 ≤ (calculate_prices V_L V_H delta mu).1 := by
  unfold calculate_prices
  simp only
  nlinarith [mul_nonneg (mul_nonneg (sub_nonneg.2 (le_of_lt hV)) hm0) hd0]

/-- Claim C4 witness: at `valueLow = 99`, `valueHigh = 101`, `delta = 1/2`,
`mu = 1/5` the returned bid does not exceed the returned ask. -/
theorem calculate_prices_ask_ge_bid_witness :
    (calculate_prices 99 101 (1/2) (1/5)).2 ≤ (calculate_prices 99 101 (1/2) (1/5)).1 :=
  calculate_prices_ask_ge_bid 99 101 (1/2) (1/5) (by norm_num) (by norm_num)
    (by norm_num) (by norm_num) (by norm_num)

/-! ## Claim C10 -/

/-- Claim C10: for all inputs, `ask + bid = valueLow + valueHigh`, so the two
quotes are symmetric around the fixed midpoint `(valueLow + valueHigh)/2`,
independently of the belief and of the informed fraction. -/
theorem calculate_prices_sum_fixed (V_L V_H delta mu : ℚ) :
    (calculate_prices V_L V_H delta mu).1 + (calculate_prices V_L V_H delta mu).2
      = V_L + V_H := by
  unfold calculate_prices
  ring

/-! ## Claim C6 -/

/-- Claim C6: for `delta ∈ (0,1)` and `informedFraction ∈ (0,1)`, a buy update
strictly lowers the belief in the low state and a sell update strictly raises
it (both updates returning normally). -/
theorem update_buy_lowers_sell_raises (delta mu : ℚ) (hd0 : 0 < delta) (hd1 : delta < 1)
    (hm0 : 0 < mu) (hm1 : mu < 1) :
    update_delta_buy delta mu = Except.ok (buyPosterior delta mu) ∧
    buyPosterior delta mu < delta ∧
    update_delta_sell delta mu = Except.ok (sellPosterior delta mu) ∧
    delta < sellPosterior delta mu := by
  have hbd := buyDenom_pos delta mu (le_of_lt hd1) (le_of_lt hm0) hm1
  have hsd := sellDenom_pos delta mu (le_of_lt hd0) (le_of_lt hm0) hm1
  refine ⟨update_delta_buy_eq_ok delta mu (ne_of_gt hbd), ?_,
          update_delta_sell_eq_ok delta mu (ne_of_gt hsd), ?_⟩
  · rw [buyPosterior, div_lt_iff₀ hbd, buyDenom]
    nlinarith [mul_pos (mul_pos hd0 hm0) (sub_pos.2 hd1)]
  · rw [sellPosterior, lt_div_iff₀ hsd, sellDenom]
    nlinarith [mul_pos (mul_pos hd0 hm0) (sub_pos.2 hd1)]

/-- Claim C6 witness: at `delta = 1/2`, `mu = 1/5` the buy update returns
`2/5 < 1/2` and the sell update returns `3/5 > 1/2`. -/
theorem update_buy_lowers_sell_raises_witness :
    update_delta_buy (1/2) (1/5) = Except.ok (buyPosterior (1/2) (1/5)) ∧
    buyPosterior (1/2) (1/5) < 1/2 ∧
    update_delta_sell (1/2) (1/5) = Except.ok (sellPosterior (1/2) (1/5)) ∧
    1/2 < sellPosterior (1/2) (1/5) :=
  update_buy_lowers_sell_raises (1/2) (1/5) (by norm_num) (by norm_num)
    (by norm_num) (by norm_num)

/-! ## Claim C7 -/

/-- Claim C7 counterexample: `mu = 1` is a valid informed fraction
(`1 ∈ [0,1]`), but `update_delta_buy(1, 1)` hits an exactly-zero denominator
and fails with `ZeroDivisionError` instead of returning `1`; likewise
`update_delta_sell(0, 1)` fails instead of returning `0`. -/
theorem boundary_identity_fails_at_mu_one :
    ((0:ℚ) ≤ 1 ∧ (1:ℚ) ≤ 1) ∧
    update_delta_buy 1 1 = Except.error PyErr.zeroDivision ∧
    update_delta_buy 1 1 ≠ Except.ok 1 ∧
    update_delta_sell 0 1 = Except.error PyErr.zeroDivision ∧
    update_delta_sell 0 1 ≠ Except.ok 0 := by
  have hb : update_delta_buy 1 1 = Except.error PyErr.zeroDivision := by
    rw [update_delta_buy, if_pos (by norm_num [buyDenom])]
  have hs : update_delta_sell 0 1 = Except.error PyErr.zeroDivision := by
    rw [update_delta_sell, if_pos (by norm_num [sellDenom])]
  refine ⟨⟨by norm_num, le_refl 1⟩, hb, ?_, hs, ?_⟩
  · rw [hb]; intro h; exact Except.noConfusion h
  · rw [hs]; intro h; exact Except.noConfusion h

/-- Claim C7 (amended): the four boundary identities
`updateOnBuy(0,m) = 0`, `updateOnBuy(1,m) = 1`, `updateOnSell(0,m) = 0`,
`updateOnSell(1,m) = 1` hold for every `m ∈ [0,1)`; at the valid extreme
`m = 1` the second and third hit a zero denominator and fail. -/
theorem update_delta_boundary_identities (mu : ℚ) (hm0 : 0 ≤ mu) (hm1 : mu < 1) :
    update_delta_buy 0 mu = Except.ok 0 ∧
    update_delta_buy 1 mu = Except.ok 1 ∧
    update_delta_sell 0 mu = Except.ok 0 ∧
    update_delta_sell 1 mu = Except.ok 1 := by
  have h1 : buyDenom 0 mu ≠ 0 := by rw [buyDenom]; intro h; nlinarith
  have h2 : buyDenom 1 mu ≠ 0 := by rw [buyDenom]; intro h; nlinarith
  have h3 : sellDenom 0 mu ≠ 0 := by rw [sellDenom]; intro h; nlinarith
  have h4 : sellDenom 1 mu ≠ 0 := by rw [sellDenom]; intro h; nlinarith
  have hb0 : buyPosterior 0 mu = 0 := by rw [buyPosterior]; norm_num
  have hb1 : buyPosterior 1 mu = 1 := by
    rw [buyPosterior, buyDenom, show (1:ℚ) + mu * (1 - 2 * 1) = 1 - mu by ring, one_mul]
    exact div_self (sub_ne_zero.2 (ne_of_gt hm1))
  have hs0 : sellPosterior 0 mu = 0 := by rw [sellPosterior]; norm_num
  have hs1 : sellPosterior 1 mu = 1 := by
    rw [sellPosterior, sellDenom, show (1:ℚ) - mu * (1 - 2 * 1) = 1 + mu by ring, one_mul]
    exact div_self (ne_of_gt (by linarith))
  rw [update_delta_buy_eq_ok 0 mu h1, update_delta_buy_eq_ok 1 mu h2,
      update_delta_sell_eq_ok 0 mu h3, update_delta_sell_eq_ok 1 mu h4,
      hb0, hb1, hs0, hs1]
  exact ⟨rfl, rfl, rfl, rfl⟩

/-- Claim C7 witness: the boundary identities at `mu = 1/5`. -/
theorem update_delta_boundary_identities_witness :
    update_delta_buy 0 (1/5) = Except.ok 0 ∧
    update_delta_buy 1 (1/5) = Except.ok 1 ∧
    update_delta_sell 0 (1/5) = Except.ok 0 ∧
    update_delta_sell 1 (1/5) = Except.ok 1 :=
  update_delta_boundary_identities (1/5) (by norm_num) (by norm_num)

/-! ## Helper lemmas about one simulation tick -/

theorem simulate_step_ok_elim (mu V_L V_H : ℚ) (st st' : SimState) (d : Draw)
    (h : simulate_step mu V_L V_H st d = Except.ok st') :
    (if d.rType < mu then
        if drawnValue d st.delta V_L V_H = V_H then update_delta_buy st.delta mu
        else update_delta_sell st.delta mu
      else Except.ok st.delta) = Except.ok st'.delta ∧
    st'.spread_history = st.spread_history ++ [mu * (V_H - V_L) * st'.delta * (1 - st'.delta)] ∧
    st'.delta_history = st.delta_history ++ [st'.delta] ∧
    st'.asset_price_history = st.asset_price_history ++ [drawnValue d st.delta V_L V_H] ∧
    st'.ask_history = st.ask_history ++ [(calculate_prices V_L V_H st.delta mu).1] ∧
    st'.bid_history = st.bid_history ++ [(calculate_prices V_L V_H st.delta mu).2] := by
  simp only [simulate_step] at h
  revert h
  cases hu : (if d.rType < mu then
      if drawnValue d st.delta V_L V_H = V_H then update_delta_buy st.delta mu
      else update_delta_sell st.delta mu
    else Except.ok st.delta) with
  | error e => intro h; exact absurd h (by simp)
  | ok dn =>
      intro h
      simp only [Except.ok.injEq] at h
      subst h
      exact ⟨rfl, rfl, rfl, rfl, rfl, rfl⟩

theorem exampleTick_step :
    simulate_step (1/5) 99 101 (initState (1/2)) ⟨0, 3/4⟩ = Except.ok exampleTick := by
  norm_num [simulate_step, initState, drawnValue, calculate_prices, update_delta_buy,
    buyDenom, buyPosterior, exampleTick]

/-! ## Claim C2 -/

/-- Claim C2: in each tick of a simulated path, the belief after the tick is
`updateOnBuy(delta_before, mu)` when the drawn trader is informed and the drawn
fundamental is `valueHigh`, `updateOnSell(delta_before, mu)` when the drawn
trader is informed and the drawn fundamental is `valueLow`, and exactly
`delta_before` when the drawn trader is uninformed. -/
theorem tick_belief_update (mu V_L V_H : ℚ) (st st' : SimState) (d : Draw)
    (hV : V_L < V_H) (h : simulate_step mu V_L V_H st d = Except.ok st') :
    (¬ d.rType < mu → st'.delta = st.delta) ∧
    (d.rType < mu → drawnValue d st.delta V_L V_H = V_H →
        update_delta_buy st.delta mu = Except.ok st'.delta) ∧
    (d.rType < mu → drawnValue d st.delta V_L V_H = V_L →
        update_delta_sell st.delta mu = Except.ok st'.delta) := by
  obtain ⟨hnd, -, -, -, -, -⟩ := simulate_step_ok_elim mu V_L V_H st st' d h
  refine ⟨?_, ?_, ?_⟩
  · intro hni
    rw [if_neg hni] at hnd
    exact (Except.ok.inj hnd).symm
  · intro hi hv
    rw [if_pos hi, if_pos hv] at hnd
    exact hnd
  · intro hi hv
    have hne : drawnValue d st.delta V_L V_H ≠ V_H := by
      rw [hv]; exact ne_of_lt hV
    rw [if_pos hi, if_neg hne] at hnd
    exact hnd

/-- Claim C2 witness: the worked example tick (informed buy at belief `1/2`,
`mu = 1/5`), whose post-tick belief is `updateOnBuy(1/2, 1/5) = 2/5`. -/
theorem tick_belief_update_witness :
    (¬ (⟨0, 3/4⟩ : Draw).rType < 1/5 → exampleTick.delta = (initState (1/2)).delta) ∧
    ((⟨0, 3/4⟩ : Draw).rType < 1/5 →
        drawnValue ⟨0, 3/4⟩ (initState (1/2)).delta 99 101 = 101 →
        update_delta_buy (initState (1/2)).delta (1/5) = Except.ok exampleTick.delta) ∧
    ((⟨0, 3/4⟩ : Draw).rType < 1/5 →
        drawnValue ⟨0, 3/4⟩ (initState (1/2)).delta 99 101 = 99 →
        update_delta_sell (initState (1/2)).delta (1/5) = Except.ok exampleTick.delta) :=
  tick_belief_update (1/5) 99 101 (initState (1/2)) exampleTick ⟨0, 3/4⟩
    (by norm_num) exampleTick_step

/-! ## Claim C3 -/

/-- Claim C3: in each tick, the value appended to the spread series is
`mu * (valueHigh - valueLow) * delta * (1 - delta)` at the post-update belief,
while the ask and bid recorded in the same tick are the quotes at the
pre-update belief, whose difference is `mu * (valueHigh - valueLow) * delta` at
the pre-update belief; on the worked example tick the two recorded quantities
differ (`12/125` versus `1/5`). -/
theorem tick_spread_metric (mu V_L V_H : ℚ) (st st' : SimState) (d : Draw)
    (h : simulate_step mu V_L V_H st d = Except.ok st') :
    st'.spread_history = st.spread_history ++ [mu * (V_H - V_L) * st'.delta * (1 - st'.delta)] ∧
    st'.ask_history = st.ask_history ++ [(calculate_prices V_L V_H st.delta mu).1] ∧
    st'.bid_history = st.bid_history ++ [(calculate_prices V_L V_H st.delta mu).2] ∧
    (calculate_prices V_L V_H st.delta mu).1 - (calculate_prices V_L V_H st.delta mu).2
      = mu * (V_H - V_L) * st.delta ∧
    (∃ stW, simulate_step (1/5) 99 101 (initState (1/2)) ⟨0, 3/4⟩ = Except.ok stW ∧
        stW.spread_history.headI ≠ stW.ask_history.headI - stW.bid_history.headI) := by
  obtain ⟨-, hs, -, -, ha, hb⟩ := simulate_step_ok_elim mu V_L V_H st st' d h
  refine ⟨hs, ha, hb, ?_, exampleTick, exampleTick_step, ?_⟩
  · unfold calculate_prices
    ring
  · norm_num [exampleTick]

/-- Claim C3 witness: the worked example tick records spread `12/125` (the
post-update metric at belief `2/5`) and quotes `1001/10`, `999/10` (whose
difference is the pre-update `1/5`). -/
theorem tick_spread_metric_witness :
    exampleTick.spread_history = (initState (1/2)).spread_history ++
      [(1/5) * ((101:ℚ) - 99) * exampleTick.delta * (1 - exampleTick.delta)] ∧
    exampleTick.ask_history = (initState (1/2)).ask_history ++
      [(calculate_prices 99 101 (initState (1/2)).delta (1/5)).1] ∧
    exampleTick.bid_history = (initState (1/2)).bid_history ++
      [(calculate_prices 99 101 (initState (1/2)).delta (1/5)).2] ∧
    (calculate_prices 99 101 (initState (1/2)).delta (1/5)).1 -
        (calculate_prices 99 101 (initState (1/2)).delta (1/5)).2
      = (1/5) * ((101:ℚ) - 99) * (initState (1/2)).delta ∧
    (∃ stW, simulate_step (1/5) 99 101 (initState (1/2)) ⟨0, 3/4⟩ = Except.ok stW ∧
        stW.spread_history.headI ≠ stW.ask_history.headI - stW.bid_history.headI) :=
  tick_spread_metric (1/5) 99 101 (initState (1/2)) exampleTick ⟨0, 3/4⟩ exampleTick_step

/-! ## Helper lemmas about whole simulation runs -/

theorem simulate_step_total (mu V_L V_H : ℚ) (st : SimState) (d : Draw)
    (hm0 : 0 ≤ mu) (hm1 : mu < 1) (h0 : 0 ≤ st.delta) (h1 : st.delta ≤ 1) :
    ∃ st', simulate_step mu V_L V_H st d = Except.ok st' ∧
      0 ≤ st'.delta ∧ st'.delta ≤ 1 ∧
      (0 < st.delta → st.delta < 1 → 0 < st'.delta ∧ st'.delta < 1) := by
  have hnd : ∃ dn, (if d.rType < mu then
      if drawnValue d st.delta V_L V_H = V_H then update_delta_buy st.delta mu
      else update_delta_sell st.delta mu
    else Except.ok st.delta) = Except.ok dn ∧ 0 ≤ dn ∧ dn ≤ 1 ∧
      (0 < st.delta → st.delta < 1 → 0 < dn ∧ dn < 1) := by
    by_cases hi : d.rType < mu
    · by_cases hv : drawnValue d st.delta V_L V_H = V_H
      · rw [if_pos hi, if_pos hv,
          update_delta_buy_eq_ok st.delta mu (ne_of_gt (buyDenom_pos st.delta mu h1 hm0 hm1))]
        exact ⟨buyPosterior st.delta mu, rfl,
          buyPosterior_nonneg st.delta mu h0 h1 hm0 hm1,
          buyPosterior_le_one st.delta mu h1 hm0 hm1,
          fun hs0 hs1 => ⟨buyPosterior_pos st.delta mu hs0 h1 hm0 hm1,
            buyPosterior_lt_one st.delta mu hs1 hm0 hm1⟩⟩
      · rw [if_pos hi, if_neg hv,
          update_delta_sell_eq_ok st.delta mu (ne_of_gt (sellDenom_pos st.delta mu h0 hm0 hm1))]
        exact ⟨sellPosterior st.delta mu, rfl,
          sellPosterior_nonneg st.delta mu h0 hm0 hm1,
          sellPosterior_le_one st.delta mu h0 h1 hm0 hm1,
          fun hs0 hs1 => ⟨sellPosterior_pos st.delta mu hs0 hm0 hm1,
            sellPosterior_lt_one st.delta mu h0 hs1 hm0 hm1⟩⟩
    · rw [if_neg hi]
      exact ⟨st.delta, rfl, h0, h1, fun a b => ⟨a, b⟩⟩
  obtain ⟨dn, hnd, hdn0, hdn1, hstrict⟩ := hnd
  refine ⟨{ delta := dn
            spread_history := st.spread_history ++ [mu * (V_H - V_L) * dn * (1 - dn)]
            delta_history := st.delta_history ++ [dn]
            asset_price_history := st.asset_price_history ++ [drawnValue d st.delta V_L V_H]
            ask_history := st.ask_history ++ [(calculate_prices V_L V_H st.delta mu).1]
            bid_history := st.bid_history ++ [(calculate_prices V_L V_H st.delta mu).2] },
    ?_, hdn0, hdn1, hstrict⟩
  simp only [simulate_step]
  rw [hnd]

theorem buyDenom_pos_of_lt_one (delta mu : ℚ) (hd0 : 0 ≤ delta) (hd1 : delta < 1)
    (hm0 : 0 ≤ mu) (hm1 : mu ≤ 1) : 0 < buyDenom delta mu := by
  unfold buyDenom
  nlinarith [mul_nonneg hd0 (sub_nonneg.2 hm1), mul_nonneg hm0 (sub_pos.2 hd1).le]

theorem sellDenom_pos_of_pos (delta mu : ℚ) (hd0 : 0 < delta) (hd1 : delta ≤ 1)
    (hm0 : 0 ≤ mu) (hm1 : mu ≤ 1) : 0 < sellDenom delta mu := by
  unfold sellDenom
  nlinarith [mul_nonneg (sub_nonneg.2 hm1) (sub_nonneg.2 hd1), mul_nonneg hm0 hd0.le]

theorem buyPosterior_mem_of_denom_pos (delta mu : ℚ) (hbd : 0 < buyDenom delta mu)
    (hd0 : 0 ≤ delta) (hd1 : delta ≤ 1) (hm0 : 0 ≤ mu) (hm1 : mu ≤ 1) :
    0 ≤ buyPosterior delta mu ∧ buyPosterior delta mu ≤ 1 := by
  constructor
  · exact div_nonneg (mul_nonneg hd0 (by linarith)) hbd.le
  · rw [buyPosterior, div_le_one hbd, buyDenom]
    nlinarith [mul_nonneg (sub_nonneg.2 hd1) (by linarith : (0:ℚ) ≤ 1 + mu)]

theorem sellPosterior_mem_of_denom_pos (delta mu : ℚ) (hsd : 0 < sellDenom delta mu)
    (hd0 : 0 ≤ delta) (hd1 : delta ≤ 1) (hm0 : 0 ≤ mu) (hm1 : mu ≤ 1) :
    0 ≤ sellPosterior delta mu ∧ sellPosterior delta mu ≤ 1 := by
  constructor
  · exact div_nonneg (mul_nonneg hd0 (by linarith)) hsd.le
  · rw [sellPosterior, div_le_one hsd, sellDenom]
    nlinarith [mul_nonneg (sub_nonneg.2 hd1) (sub_nonneg.2 hm1)]

theorem simulate_step_total_valid (mu V_L V_H : ℚ) (st : SimState) (d : Draw)
    (hV : V_L < V_H) (hm0 : 0 ≤ mu) (hm1 : mu ≤ 1)
    (h0 : 0 ≤ st.delta) (h1 : st.delta ≤ 1) (hr0 : 0 ≤ d.rValue) (hr1 : d.rValue < 1) :
    ∃ st', simulate_step mu V_L V_H st d = Except.ok st' ∧
      0 ≤ st'.delta ∧ st'.delta ≤ 1 := by
  have hnd : ∃ dn, (if d.rType < mu then
      if drawnValue d st.delta V_L V_H = V_H then update_delta_buy st.delta mu
      else update_delta_sell st.delta mu
    else Except.ok st.delta) = Except.ok dn ∧ 0 ≤ dn ∧ dn ≤ 1 := by
    by_cases hi : d.rType < mu
    · by_cases hv : drawnValue d st.delta V_L V_H = V_H
      · have hdlt : st.delta < 1 := by
          rcases lt_or_le d.rValue st.delta with hlt | hle
          · exfalso
            rw [drawnValue, if_pos hlt] at hv
            exact (ne_of_lt hV) hv
          · exact lt_of_le_of_lt hle hr1
        have hbd := buyDenom_pos_of_lt_one st.delta mu h0 hdlt hm0 hm1
        rw [if_pos hi, if_pos hv, update_delta_buy_eq_ok st.delta mu (ne_of_gt hbd)]
        obtain ⟨ha, hb⟩ := buyPosterior_mem_of_denom_pos st.delta mu hbd h0 h1 hm0 hm1
        exact ⟨buyPosterior st.delta mu, rfl, ha, hb⟩
      · have hdpos : 0 < st.delta := by
          rcases lt_or_le d.rValue st.delta with hlt | hle
          · exact lt_of_le_of_lt hr0 hlt
          · exfalso
            rw [drawnValue, if_neg (not_lt.2 hle)] at hv
            exact hv rfl
        have hsd := sellDenom_pos_of_pos st.delta mu hdpos h1 hm0 hm1
        rw [if_pos hi, if_neg hv, update_delta_sell_eq_ok st.delta mu (ne_of_gt hsd)]
        obtain ⟨ha, hb⟩ := sellPosterior_mem_of_denom_pos st.delta mu hsd h0 h1 hm0 hm1
        exact ⟨sellPosterior st.delta mu, rfl, ha, hb⟩
    · rw [if_neg hi]
      exact ⟨st.delta, rfl, h0, h1⟩
  obtain ⟨dn, hnd, hdn0, hdn1⟩ := hnd
  refine ⟨{ delta := dn
            spread_history := st.spread_history ++ [mu * (V_H - V_L) * dn * (1 - dn)]
            delta_history := st.delta_history ++ [dn]
            asset_price_history := st.asset_price_history ++ [drawnValue d st.delta V_L V_H]
            ask_history := st.ask_history ++ [(calculate_prices V_L V_H st.delta mu).1]
            bid_history := st.bid_history ++ [(calculate_prices V_L V_H st.delta mu).2] },
    ?_, hdn0, hdn1⟩
  simp only [simulate_step]
  rw [hnd]

theorem simulate_loop_total (mu V_L V_H : ℚ) (hV : V_L < V_H)
    (hm0 : 0 ≤ mu) (hm1 : mu ≤ 1) :
    ∀ (ds : List Draw) (st : SimState), 0 ≤ st.delta → st.delta ≤ 1 →
      (∀ d ∈ ds, 0 ≤ d.rValue ∧ d.rValue < 1) →
      ∃ st', simulate_loop mu V_L V_H st ds = Except.ok st' ∧
        0 ≤ st'.delta ∧ st'.delta ≤ 1 ∧
        st'.spread_history.length = st.spread_history.length + ds.length ∧
        st'.asset_price_history.length = st.asset_price_history.length + ds.length ∧
        st'.ask_history.length = st.ask_history.length + ds.length ∧
        st'.bid_history.length = st.bid_history.length + ds.length ∧
        st'.delta_history.length = st.delta_history.length + ds.length := by
  intro ds
  induction ds with
  | nil =>
      intro st h0 h1 hds
      exact ⟨st, rfl, h0, h1, by simp, by simp, by simp, by simp, by simp⟩
  | cons d ds ih =>
      intro st h0 h1 hds
      obtain ⟨hr0, hr1⟩ := hds d (List.mem_cons_self d ds)
      obtain ⟨st₁, hstep, h₁0, h₁1⟩ :=
        simulate_step_total_valid mu V_L V_H st d hV hm0 hm1 h0 h1 hr0 hr1
      obtain ⟨st', hloop, h'0, h'1, l1, l2, l3, l4, l5⟩ :=
        ih st₁ h₁0 h₁1 (fun x hx => hds x (List.mem_cons_of_mem d hx))
      obtain ⟨-, hs, hdh, hap, ha, hb⟩ := simulate_step_ok_elim mu V_L V_H st st₁ d hstep
      refine ⟨st', ?_, h'0, h'1, ?_, ?_, ?_, ?_, ?_⟩
      · simp only [simulate_loop]
        rw [hstep]
        exact hloop
      · rw [l1, hs]
        simp only [List.length_append, List.length_cons, List.length_nil]
        omega
      · rw [l2, hap]
        simp only [List.length_append, List.length_cons, List.length_nil]
        omega
      · rw [l3, ha]
        simp only [List.length_append, List.length_cons, List.length_nil]
        omega
      · rw [l4, hb]
        simp only [List.length_append, List.length_cons, List.length_nil]
        omega
      · rw [l5, hdh]
        simp only [List.length_append, List.length_cons, List.length_nil]
        omega

theorem simulate_loop_interior_inv (mu V_L V_H : ℚ) (hm0 : 0 ≤ mu) (hm1 : mu < 1) :
    ∀ (ds : List Draw) (st : SimState), 0 < st.delta → st.delta < 1 →
      (∀ x ∈ st.delta_history, 0 < x ∧ x < 1) →
      ∃ st', simulate_loop mu V_L V_H st ds = Except.ok st' ∧
        0 < st'.delta ∧ st'.delta < 1 ∧ ∀ x ∈ st'.delta_history, 0 < x ∧ x < 1 := by
  intro ds
  induction ds with
  | nil =>
      intro st h0 h1 hall
      exact ⟨st, rfl, h0, h1, hall⟩
  | cons d ds ih =>
      intro st h0 h1 hall
      obtain ⟨st₁, hstep, -, -, hstrict⟩ :=
        simulate_step_total mu V_L V_H st d hm0 hm1 (le_of_lt h0) (le_of_lt h1)
      obtain ⟨h₁0, h₁1⟩ := hstrict h0 h1
      obtain ⟨-, -, hdh, -, -, -⟩ := simulate_step_ok_elim mu V_L V_H st st₁ d hstep
      have hall₁ : ∀ x ∈ st₁.delta_history, 0 < x ∧ x < 1 := by
        rw [hdh]
        intro x hx
        rcases List.mem_append.1 hx with hx | hx
        · exact hall x hx
        · rcases List.mem_singleton.1 hx with rfl
          exact ⟨h₁0, h₁1⟩
      obtain ⟨st', hloop, h'0, h'1, hall'⟩ := ih st₁ h₁0 h₁1 hall₁
      refine ⟨st', ?_, h'0, h'1, hall'⟩
      simp only [simulate_loop]
      rw [hstep]
      exact hloop

theorem simulate_loop_delta_prefix (mu V_L V_H : ℚ) :
    ∀ (ds : List Draw) (st st' : SimState),
      simulate_loop mu V_L V_H st ds = Except.ok st' →
      ∃ tail, st'.delta_history = st.delta_history ++ tail := by
  intro ds
  induction ds with
  | nil =>
      intro st st' h
      simp only [simulate_loop, Except.ok.injEq] at h
      subst h
      exact ⟨[], by simp⟩
  | cons d ds ih =>
      intro st st' h
      simp only [simulate_loop] at h
      revert h
      cases hstep : simulate_step mu V_L V_H st d with
      | error e => intro h; exact absurd h (by simp)
      | ok st₁ =>
          intro h
          obtain ⟨tail, htail⟩ := ih st₁ st' h
          obtain ⟨-, -, hdh, -, -, -⟩ := simulate_step_ok_elim mu V_L V_H st st₁ d hstep
          refine ⟨st₁.delta :: tail, ?_⟩
          rw [htail, hdh, List.append_assoc]
          rfl

theorem sum_map_const_of_mem (l : List SimState) (f : SimState → ℚ) (c : ℚ)
    (h : ∀ x ∈ l, f x = c) : (l.map f).sum = l.length * c := by
  induction l with
  | nil => simp
  | cons a t ih =>
      simp only [List.map_cons, List.sum_cons, List.length_cons]
      rw [h a (List.mem_cons_self a t), ih (fun x hx => h x (List.mem_cons_of_mem a hx))]
      push_cast
      ring

theorem run_simulations_elim (delta mu V_L V_H : ℚ) :
    ∀ (dss : List (List Draw)) (runs : List SimState),
      run_simulations delta mu V_L V_H dss = Except.ok runs →
      runs.length = dss.length ∧ ∀ st ∈ runs, st.delta_history.getD 0 0 = delta := by
  intro dss
  induction dss with
  | nil =>
      intro runs h
      simp only [run_simulations, Except.ok.injEq] at h
      subst h
      exact ⟨rfl, by simp⟩
  | cons ds rest ih =>
      intro runs h
      simp only [run_simulations] at h
      revert h
      cases hrun : simulate_model delta mu V_L V_H ds with
      | error e => intro h; exact absurd h (by simp)
      | ok st =>
          cases hrest : run_simulations delta mu V_L V_H rest with
          | error e => intro h; exact absurd h (by simp)
          | ok sts =>
              intro h
              simp only [Except.ok.injEq] at h
              subst h
              obtain ⟨hlen, hall⟩ := ih sts hrest
              have hst : st.delta_history.getD 0 0 = delta := by
                obtain ⟨tail, htail⟩ :=
                  simulate_loop_delta_prefix mu V_L V_H ds (initState delta) st hrun
                rw [htail]
                rfl
              refine ⟨by simp [hlen], ?_⟩
              intro x hx
              rcases List.mem_cons.1 hx with rfl | hx
              · exact hst
              · exact hall x hx

/-! ## Claim C5 -/

/-- Claim C5: for an informed fraction `mu ∈ [0,1)`, both belief updates return
normally and map `[0,1]` into `[0,1]` and the open interval `(0,1)` strictly
into `(0,1)`; consequently a simulated path started from an interior belief
succeeds and every belief value it records stays strictly inside `(0,1)`. -/
theorem belief_updates_preserve_range (mu : ℚ) (hm0 : 0 ≤ mu) (hm1 : mu < 1) :
    (∀ delta : ℚ, 0 ≤ delta → delta ≤ 1 →
        update_delta_buy delta mu = Except.ok (buyPosterior delta mu) ∧
        0 ≤ buyPosterior delta mu ∧ buyPosterior delta mu ≤ 1 ∧
        update_delta_sell delta mu = Except.ok (sellPosterior delta mu) ∧
        0 ≤ sellPosterior delta mu ∧ sellPosterior delta mu ≤ 1) ∧
    (∀ delta : ℚ, 0 < delta → delta < 1 →
        0 < buyPosterior delta mu ∧ buyPosterior delta mu < 1 ∧
        0 < sellPosterior delta mu ∧ sellPosterior delta mu < 1) ∧
    (∀ (delta V_L V_H : ℚ) (draws : List Draw), 0 < delta → delta < 1 →
        ∃ st, simulate_model delta mu V_L V_H draws = Except.ok st ∧
          ∀ x ∈ st.delta_history, 0 < x ∧ x < 1) := by
  refine ⟨?_, ?_, ?_⟩
  · intro delta hd0 hd1
    exact ⟨update_delta_buy_eq_ok delta mu (ne_of_gt (buyDenom_pos delta mu hd1 hm0 hm1)),
      buyPosterior_nonneg delta mu hd0 hd1 hm0 hm1,
      buyPosterior_le_one delta mu hd1 hm0 hm1,
      update_delta_sell_eq_ok delta mu (ne_of_gt (sellDenom_pos delta mu hd0 hm0 hm1)),
      sellPosterior_nonneg delta mu hd0 hm0 hm1,
      sellPosterior_le_one delta mu hd0 hd1 hm0 hm1⟩
  · intro delta hd0 hd1
    exact ⟨buyPosterior_pos delta mu hd0 (le_of_lt hd1) hm0 hm1,
      buyPosterior_lt_one delta mu hd1 hm0 hm1,
      sellPosterior_pos delta mu hd0 hm0 hm1,
      sellPosterior_lt_one delta mu (le_of_lt hd0) hd1 hm0 hm1⟩
  · intro delta V_L V_H draws hd0 hd1
    have hinit : ∀ x ∈ (initState delta).delta_history, 0 < x ∧ x < 1 := by
      intro x hx
      rcases List.mem_singleton.1 hx with rfl
      exact ⟨hd0, hd1⟩
    obtain ⟨st, hloop, -, -, hall⟩ :=
      simulate_loop_interior_inv mu V_L V_H hm0 hm1 draws (initState delta) hd0 hd1 hinit
    exact ⟨st, hloop, hall⟩

/-- Claim C5 witness: at `mu = 1/5` and the worked example path (initial
belief `1/2`, one informed-buy tick towards `valueHigh = 101`), the update
values stay in range and the recorded beliefs stay interior. -/
theorem belief_updates_preserve_range_witness :
    (0 ≤ buyPosterior (1/2) (1/5) ∧ buyPosterior (1/2) (1/5) ≤ 1) ∧
    (0 < buyPosterior (1/2) (1/5) ∧ buyPosterior (1/2) (1/5) < 1) ∧
    (∃ st, simulate_model (1/2) (1/5) 99 101 [⟨0, 3/4⟩] = Except.ok st ∧
        ∀ x ∈ st.delta_history, 0 < x ∧ x < 1) := by
  have h := belief_updates_preserve_range (1/5) (by norm_num) (by norm_num)
  obtain ⟨hr, hs, hp⟩ := h
  obtain ⟨-, hb0, hb1, -, -, -⟩ := hr (1/2) (by norm_num) (by norm_num)
  obtain ⟨hc0, hc1, -, -⟩ := hs (1/2) (by norm_num) (by norm_num)
  exact ⟨⟨hb0, hb1⟩, ⟨hc0, hc1⟩, hp (1/2) 99 101 [⟨0, 3/4⟩] (by norm_num) (by norm_num)⟩

/-! ## Claim C8 -/

/-- Claim C8: for any valid parameters (`valueLow < valueHigh`, initial belief
in `[0,1]`, informed fraction in `[0,1]`), a tick count `> 0` and any draw
sequence producible by `random.random()` (values in `[0,1)`), one simulation
run returns, and its spread, fundamental-value, ask and bid series all have
length exactly `tickCount` while the belief series has length `tickCount + 1`
with the initial belief at index 0; hence all runs under identical parameters
produce histories of identical length. -/
theorem simulate_model_history_lengths (delta mu V_L V_H : ℚ) (draws : List Draw)
    (hV : V_L < V_H) (hd0 : 0 ≤ delta) (hd1 : delta ≤ 1)
    (hm0 : 0 ≤ mu) (hm1 : mu ≤ 1)
    (hdraws : ∀ d ∈ draws, 0 ≤ d.rValue ∧ d.rValue < 1)
    (hn : 0 < draws.length) :
    ∃ st, simulate_model delta mu V_L V_H draws = Except.ok st ∧
      st.spread_history.length = draws.length ∧
      st.asset_price_history.length = draws.length ∧
      st.ask_history.length = draws.length ∧
      st.bid_history.length = draws.length ∧
      st.delta_history.length = draws.length + 1 ∧
      st.delta_history.getD 0 0 = delta := by
  obtain ⟨st, hloop, -, -, l1, l2, l3, l4, l5⟩ :=
    simulate_loop_total mu V_L V_H hV hm0 hm1 draws (initState delta) hd0 hd1 hdraws
  obtain ⟨tail, htail⟩ :=
    simulate_loop_delta_prefix mu V_L V_H draws (initState delta) st hloop
  refine ⟨st, hloop, ?_, ?_, ?_, ?_, ?_, ?_⟩
  · simpa [initState] using l1
  · simpa [initState] using l2
  · simpa [initState] using l3
  · simpa [initState] using l4
  · rw [l5]
    simp [initState, Nat.add_comm]
  · rw [htail]
    rfl

/-- Claim C8 witness: the single-tick run of the worked example returns series
of lengths `1, 1, 1, 1` and a belief series of length `2` headed by `1/2`. -/
theorem simulate_model_history_lengths_witness :
    ∃ st, simulate_model (1/2) (1/5) 99 101 [⟨0, 3/4⟩] = Except.ok st ∧
      st.spread_history.length = ([⟨0, 3/4⟩] : List Draw).length ∧
      st.asset_price_history.length = ([⟨0, 3/4⟩] : List Draw).length ∧
      st.ask_history.length = ([⟨0, 3/4⟩] : List Draw).length ∧
      st.bid_history.length = ([⟨0, 3/4⟩] : List Draw).length ∧
      st.delta_history.length = ([⟨0, 3/4⟩] : List Draw).length + 1 ∧
      st.delta_history.getD 0 0 = 1/2 :=
  simulate_model_history_lengths (1/2) (1/5) 99 101 [⟨0, 3/4⟩]
    (by norm_num) (by norm_num) (by norm_num) (by norm_num) (by norm_num)
    (by intro x hx; rcases List.mem_singleton.1 hx with rfl; exact ⟨by norm_num, by norm_num⟩)
    (by norm_num)

/-! ## Claim C9 -/

/-- Claim C9: for any nonempty collection of replications that the Monte Carlo
loop completes, the aggregated (elementwise mean) belief series has exactly the
initial belief at index 0, because every replication's belief series starts
with that same initial belief. -/
theorem mean_delta_at_zero (delta mu V_L V_H : ℚ) (dss : List (List Draw))
    (runs : List SimState) (hne : dss ≠ [])
    (h : run_simulations delta mu V_L V_H dss = Except.ok runs) :
    mean_delta runs 0 = delta := by
  obtain ⟨hlen, hall⟩ := run_simulations_elim delta mu V_L V_H dss runs h
  have hn : (runs.length : ℚ) ≠ 0 := by
    rw [hlen]
    exact_mod_cast (List.length_pos.2 hne).ne'
  unfold mean_delta mean_at
  rw [List.map_map, List.length_map]
  simp only [Function.comp_def]
  rw [sum_map_const_of_mem runs (fun st => st.delta_history.getD 0 0) delta hall]
  exact mul_div_cancel_left₀ delta hn

/-- Claim C9 witness: a one-replication, one-tick Monte Carlo run of the
worked example aggregates to belief `1/2` at index 0. -/
theorem mean_delta_at_zero_witness : mean_delta [exampleTick] 0 = 1/2 := by
  refine mean_delta_at_zero (1/2) (1/5) 99 101 [[⟨0, 3/4⟩]] [exampleTick] (by simp) ?_
  have hstep := exampleTick_step
  simp only [run_simulations, simulate_model, simulate_loop]
  rw [hstep]
